import Mathlib

/-!
Verification of the STIHL Timbersports scraper (`TimbersportsScraper.py`)
against its natural-language specification.

Shallow embedding conventions:
* Python strings are `List Char` (ASCII semantics for the character classes
  used by the scraper's regexes: `\d` = `[0-9]`, `[A-Za-z]`, `\s` = the six
  ASCII whitespace characters, `.lower()` on `A`-`Z`).
* BeautifulSoup documents are embedded at the level the scraper observes
  them: a listing page is a list of `<tr>` rows (each with its first
  event link, if any, and its `<td>` texts); an event page carries its
  extracted date/location texts, its anchor-id → section map, and its
  athlete-profile links; a section carries the `<p>` blocks following the
  anchor in document order and the first following `<table>`'s rows.
* `requests` fetches are embedded as a `Site` record of functions
  returning `Option` (`none` = `get_page` returned `None`).
* `pandas.DataFrame` values are lists of `ResultRecord`;
  `drop_duplicates(..., keep='first')` is `dedup`.
-/

namespace Timbersports

/-! ### Character classes (ASCII semantics of the Python regexes) -/

/-- Regex class `\d` of the scraper's regexes: an ASCII decimal digit. -/
def isDigitC (c : Char) : Bool := 48 ≤ c.toNat && c.toNat ≤ 57

/-- Regex class `[A-Za-z]` of the species regex. -/
def isAlphaC (c : Char) : Bool :=
  (65 ≤ c.toNat && c.toNat ≤ 90) || (97 ≤ c.toNat && c.toNat ≤ 122)

/-- Regex class `\s` (ASCII): space, tab, newline, carriage return, vertical tab, form feed. -/
def isSpaceC (c : Char) : Bool :=
  c.toNat == 32 || c.toNat == 9 || c.toNat == 10 ||
  c.toNat == 13 || c.toNat == 11 || c.toNat == 12

/-- Python's `str.lower()` on ASCII letters. -/
def toLowerC (c : Char) : Char :=
  if 65 ≤ c.toNat && c.toNat ≤ 90 then Char.ofNat (c.toNat + 32) else c

/-- Python's `s.lower()`. -/
def lowerL (s : List Char) : List Char := s.map toLowerC

/-- Python's `s.strip()`: remove leading and trailing whitespace. -/
def stripChars (s : List Char) : List Char :=
  ((s.dropWhile isSpaceC).reverse.dropWhile isSpaceC).reverse

/-- Whether `pat` is a prefix of `s` (`s.startswith(pat)` / anchored regex match). -/
def begins : List Char → List Char → Bool
  | [], _ => true
  | _ :: _, [] => false
  | p :: ps, c :: cs => p == c && begins ps cs

/-- Python's substring containment `pat in s`. -/
def containsSub (pat : List Char) : List Char → Bool
  | [] => pat.isEmpty
  | c :: tail => begins pat (c :: tail) || containsSub pat tail

/-- Python's `int(ds)` on a string of decimal digits. -/
def digitsToNat (ds : List Char) : Nat :=
  ds.foldl (fun a c => a * 10 + (c.toNat - 48)) 0

/-- Helper for `natToDec` (fuel-based decimal printing). -/
def natToDecAux : Nat → Nat → List Char → List Char
  | 0, _, acc => acc
  | fuel + 1, n, acc =>
    let d := Char.ofNat (48 + n % 10)
    if n < 10 then d :: acc else natToDecAux fuel (n / 10) (d :: acc)

/-- Python's `str(n)` for a non-negative integer. -/
def natToDec (n : Nat) : List Char := natToDecAux (n + 1) n []

/-! ### The two wood-description regex searches

`re.search(r'(\d+)\s*cm', wood_info)` and
`re.search(r'([A-Za-z]+)\s*\(', wood_info)`.

Both patterns have the form `(run+)\s*LIT`: at each candidate start
position the engine takes the maximal run, then maximal whitespace, then
requires the literal; backtracking inside the run or the `\s*` can never
succeed when the maximal attempt fails (a shorter run is followed by a
run character, which is neither whitespace nor the literal's first
character), so `re.search`'s leftmost-match semantics reduce to this
scan that advances the start position one character at a time. -/

/-- The search `re.search(r'(\d+)\s*cm', s)`, returning group 1. -/
def searchCm : List Char → Option (List Char)
  | [] => none
  | c :: cs =>
    if isDigitC c then
      let ds := c :: cs.takeWhile isDigitC
      let after := (cs.dropWhile isDigitC).dropWhile isSpaceC
      match after with
      | 'c' :: 'm' :: _ => some ds
      | _ => searchCm cs
    else searchCm cs

/-- The search `re.search(r'([A-Za-z]+)\s*\(', s)`, returning group 1. -/
def searchSpecies : List Char → Option (List Char)
  | [] => none
  | c :: cs =>
    if isAlphaC c then
      let sp := c :: cs.takeWhile isAlphaC
      let after := (cs.dropWhile isAlphaC).dropWhile isSpaceC
      match after with
      | '(' :: _ => some sp
      | _ => searchSpecies cs
    else searchSpecies cs

/-- Lines 282-294 (and 452-460): from a wood description, derive
`(wood_size_mm, wood_species)`; each field is `""` when its regex fails
or when `wood_info` is empty (the `if wood_info:` guard). -/
def extractWood (wood_info : List Char) : List Char × List Char :=
  if wood_info.isEmpty then ([], []) else
    (match searchCm wood_info with
     | some ds => natToDec (digitsToNat ds * 10)
     | none => [],
     match searchSpecies wood_info with
     | some sp => sp
     | none => [])

/-- Python's `", ".join(markers)`. -/
def joinSep (sep : List Char) : List (List Char) → List Char
  | [] => []
  | [x] => x
  | x :: y :: ys => x ++ sep ++ joinSep sep (y :: ys)

/-- The scraper's fixed base origin. -/
def BASE_URL : List Char := "https://data.stihl-timbersports.com".data

/-- Line 279 (and 482):
`"SB" if "Standing Block" in discipline_name else "UH"`. -/
def disciplineAbbrev (discipline_name : List Char) : List Char :=
  if containsSub "Standing Block".data discipline_name then "SB".data
  else "UH".data

/-! ### Data model -/

/-- An `<a>` element as the scraper reads it: its text and `href`. -/
structure ALink where
  text : List Char
  href : List Char
deriving DecidableEq

/-- A `<td>` cell: its text and its first contained `<a>`, if any. -/
structure Cell where
  text : List Char
  link : Option ALink
deriving DecidableEq

def emptyCell : Cell := ⟨[], none⟩

/-- One output record (the dictionary appended at lines 296-306 / 484-494).
`special_markers` holds the `'Special Markers'` string. -/
structure ResultRecord where
  profile_url : List Char
  name : List Char
  discipline : List Char
  time : List Char
  size : List Char
  species : List Char
  event_date : List Char
  event_name : List Char
  special_markers : List Char
deriving DecidableEq

/-- A discipline section of an event page, seen from its round anchor:
the `<p>` blocks following the anchor in document order (`find_next('p')`
returns the head) and the rows of the first following `<table>`. -/
structure DisSection where
  paragraphs : List (List Char)
  table : Option (List (List Cell))
deriving DecidableEq

/-- An event page as the scraper observes it: the date/location texts
read from the `dt`/`dd` pairs, the id → section mapping for the round
anchors present in the document, and the `<a>` links whose `href`
matches `/Athlete/\d+`. -/
structure EventDoc where
  event_date : List Char
  location : List Char
  anchors : List (List Char × DisSection)
  athleteLinks : List ALink
deriving DecidableEq

/-- A `<tr>` of the Results listing page: its first `<a>` whose `href`
matches `/Event/\d+` (if any), and its `<td>` texts. -/
structure ListingRow where
  link : Option ALink
  cells : List (List Char)
deriving DecidableEq

/-- An event reference from the listing page (lines 114-119). -/
structure EventRef where
  name : List Char
  url : List Char
  date_location : List Char
  nation : List Char
deriving DecidableEq

/-- The remote site, as a record of fetch results: `none` models
`get_page` returning `None`. `listingPages` is keyed by the optional
season query parameter, the other two by URL. `profilePages` returns
the text of the page's first `<h2>` (inner `none` = no `<h2>`). -/
structure Site where
  listingPages : Option (List Char) → Option (List ListingRow)
  eventDocs : List Char → Option EventDoc
  profilePages : List Char → Option (Option (List Char))

/-! ### Row parsing -/

/-- Lines 253-258 (and 474-475): the athlete name of a row, from the
name cell's link text if present, else the raw cell text. -/
def rowName (cells : List Cell) : List Char :=
  match (cells.getD 1 emptyCell).link with
  | some l => stripChars l.text
  | none => stripChars (cells.getD 1 emptyCell).text

/-- Lines 252-259: the profile URL of a row, `BASE_URL + href` when the
name cell has a link, else empty. -/
def rowProfileUrl (cells : List Cell) : List Char :=
  match (cells.getD 1 emptyCell).link with
  | some l => BASE_URL ++ l.href
  | none => []

/-- Lines 271-276: the markers list — only `cells[5]` is inspected, and
its stripped text is appended only when non-empty. -/
def rowMarkers (cells : List Cell) : List (List Char) :=
  if 5 < cells.length then
    if (stripChars (cells.getD 5 emptyCell).text).isEmpty then []
    else [stripChars (cells.getD 5 emptyCell).text]
  else []

/-- Lines 244-306, body of the row loop of `_parse_discipline_section`:
rows with fewer than 4 cells are skipped, every other row yields a
record. -/
def rowToRecord (discipline_name event_name event_date wood_info : List Char)
    (cells : List Cell) : Option ResultRecord :=
  if cells.length < 4 then none
  else
    let time := if 4 < cells.length then stripChars (cells.getD 4 emptyCell).text
                else []
    let ws := extractWood wood_info
    some { profile_url := rowProfileUrl cells
           name := rowName cells
           discipline := disciplineAbbrev discipline_name
           time := time
           size := ws.1
           species := ws.2
           event_date := event_date
           event_name := event_name
           special_markers := joinSep ", ".data (rowMarkers cells) }

/-! ### Wood-description location
(`re.search(r'Competition Wood:\s*\*\*([^*]+)\*\*', prev.text)`) -/

/-- Attempt the wood-marker regex anchored at the head of `s`,
returning group 1. -/
def woodMarkerAt (s : List Char) : Option (List Char) :=
  if begins "Competition Wood:".data s then
    match (s.drop ("Competition Wood:".data.length)).dropWhile isSpaceC with
    | '*' :: '*' :: r2 =>
      match r2.takeWhile (fun c => !(c == '*')),
            r2.dropWhile (fun c => !(c == '*')) with
      | g :: gs, '*' :: '*' :: _ => some (g :: gs)
      | _, _ => none
    | _ => none
  else none

/-- The full `re.search` of the wood-marker regex: leftmost match. -/
def searchWoodMarker : List Char → Option (List Char)
  | [] => none
  | c :: cs =>
    match woodMarkerAt (c :: cs) with
    | some g => some g
    | none => searchWoodMarker cs

/-- Lines 235-240 (and 444-449): the wood description used by a section:
`find_next('p')` returns only the FIRST paragraph after the anchor; the
marker phrase and regex are applied to that paragraph alone. -/
def woodInfoOf (paragraphs : List (List Char)) : List Char :=
  match paragraphs with
  | [] => []
  | p :: _ =>
    if containsSub "Competition Wood:".data p then
      match searchWoodMarker p with
      | some g => stripChars g
      | none => []
    else []

/-- Lines 223-308, `_parse_discipline_section`: abort with no records if
no table follows the anchor; otherwise read the wood description and
parse every row after the header. -/
def parseDisciplineSection (discipline_name event_name event_date
    _location : List Char) (sec : DisSection) : List ResultRecord :=
  match sec.table with
  | none => []
  | some rows =>
    let wood_info := woodInfoOf sec.paragraphs
    (rows.drop 1).filterMap
      (rowToRecord discipline_name event_name event_date wood_info)

/-! ### Anchor location and event parsing -/

/-- BeautifulSoup's `soup.find(id=anchor_id)`. -/
def findById (doc : EventDoc) (anchor_id : List Char) : Option DisSection :=
  (doc.anchors.find? (fun p => p.1 == anchor_id)).map (fun p => p.2)

/-- Try anchor ids in order, first hit wins (the `or`-chain of lines
194-196 / 208-210 and the `for`/`break` loop of lines 432-438). -/
def findFirstAnchor (doc : EventDoc) : List (List Char) → Option DisSection
  | [] => none
  | i :: rest =>
    match findById doc i with
    | some s => some s
    | none => findFirstAnchor doc rest

/-- Python's `discipline_name.replace(" ", "")`. -/
def removeSpaces (s : List Char) : List Char := s.filter (fun c => !(c == ' '))

/-- Lines 433-435: the three candidate anchor ids for a discipline. -/
def roundIds (discipline_name : List Char) : List (List Char) :=
  ["Round1".data ++ removeSpaces discipline_name,
   "Round2".data ++ removeSpaces discipline_name,
   "Round3".data ++ removeSpaces discipline_name]

/-- Lines 160-221, `parse_event_results`: fetch the page, then parse
each of the two disciplines whose section anchor is found. -/
def parseEventResults (site : Site) (event : EventRef) : List ResultRecord :=
  match site.eventDocs event.url with
  | none => []
  | some doc =>
    let underhand := findFirstAnchor doc
      ["Round1UnderhandChop".data, "Round2UnderhandChop".data,
       "Round3UnderhandChop".data]
    let standing := findFirstAnchor doc
      ["Round1StandingBlockChop".data, "Round2StandingBlockChop".data,
       "Round3StandingBlockChop".data]
    (match underhand with
     | some sec => parseDisciplineSection "Underhand Chop".data event.name
         doc.event_date doc.location sec
     | none => []) ++
    (match standing with
     | some sec => parseDisciplineSection "Standing Block Chop".data event.name
         doc.event_date doc.location sec
     | none => [])

/-! ### Per-athlete event scan -/

/-- Lines 469-494, body of the row loop of
`_get_athlete_results_from_event`: rows with fewer than 5 cells are
skipped; a record is emitted when the row's athlete name contains the
queried name case-insensitively, carrying the resolved `athlete_url`. -/
def athleteRowToRecord (athlete_name athlete_url discipline_name event_name
    event_date wood_size_mm wood_species : List Char)
    (cells : List Cell) : Option ResultRecord :=
  if cells.length < 5 then none
  else if containsSub (lowerL athlete_name) (lowerL (rowName cells)) then
    some { profile_url := athlete_url
           name := rowName cells
           discipline := disciplineAbbrev discipline_name
           time := if 4 < cells.length then
               stripChars (cells.getD 4 emptyCell).text else []
           size := wood_size_mm
           species := wood_species
           event_date := event_date
           event_name := event_name
           special_markers := if 5 < cells.length then
               stripChars (cells.getD 5 emptyCell).text else [] }
  else none

/-- Lines 431-494, one discipline of `_get_athlete_results_from_event`. -/
def athleteDisciplineResults (doc : EventDoc) (discipline_name event_name
    athlete_name athlete_url : List Char) : List ResultRecord :=
  match findFirstAnchor doc (roundIds discipline_name) with
  | none => []
  | some sec =>
    let ws := extractWood (woodInfoOf sec.paragraphs)
    match sec.table with
    | none => []
    | some rows =>
      (rows.drop 1).filterMap
        (athleteRowToRecord athlete_name athlete_url discipline_name
          event_name doc.event_date ws.1 ws.2)

/-- Lines 413-496, `_get_athlete_results_from_event`. -/
def getAthleteResultsFromEvent (site : Site) (event_url event_name
    athlete_name athlete_url : List Char) : List ResultRecord :=
  match site.eventDocs event_url with
  | none => []
  | some doc =>
    athleteDisciplineResults doc "Underhand Chop".data event_name
      athlete_name athlete_url ++
    athleteDisciplineResults doc "Standing Block Chop".data event_name
      athlete_name athlete_url

/-! ### Event listing -/

/-- Lines 114-119: build an `EventRef` from a listing row with link `l`. -/
def mkEventRef (row : ListingRow) (l : ALink) : EventRef :=
  { name := stripChars l.text
    url := BASE_URL ++ l.href
    date_location := if 2 ≤ row.cells.length then stripChars (row.cells.getD 0 [])
                     else []
    nation := if 2 ≤ row.cells.length then stripChars (row.cells.getD 1 [])
              else [] }

/-- Line 121: `if limit and len(events) >= limit` — Python truthiness,
so a limit of `0` never triggers the break. -/
def limitReached (limit : Option Nat) (n : Nat) : Bool :=
  match limit with
  | some k => decide (k ≠ 0) && decide (k ≤ n)
  | none => false

/-- Lines 99-124: the listing-row loop, accumulating events and
breaking once the per-call limit is reached. -/
def scanRows (limit : Option Nat) : List ListingRow → List EventRef → List EventRef
  | [], events => events
  | row :: rest, events =>
    match row.link with
    | none => scanRows limit rest events
    | some l =>
      let events' := events ++ [mkEventRef row l]
      if limitReached limit events'.length then events'
      else scanRows limit rest events'

/-- Lines 85-124, `_get_events_for_season` (URL construction and fetch
abstracted into `Site.listingPages`, keyed by the season parameter). -/
def getEventsForSeason (site : Site) (season : Option (List Char))
    (limit : Option Nat) : List EventRef :=
  match site.listingPages season with
  | none => []
  | some rows => scanRows limit rows []

/-- Lines 46-83, `get_events`: per-season lists are fetched with
`limit=None` and concatenated; the `limit` is applied afterwards, and
only when it is truthy and exceeded. The branch guards are Python
truthiness tests: line 62's `if seasons_list:` is false for `None` AND
for an empty list, and line 69's `elif season:` is false for `None`
AND for an empty string — both falsy cases fall through toward the
default-view fetch. -/
def getEvents (site : Site) (season : Option (List Char))
    (seasons_list : Option (List (List Char))) (limit : Option Nat) :
    List EventRef :=
  let all_events :=
    match seasons_list with
    | some (s0 :: ss) =>
      (s0 :: ss).foldl (fun acc s => acc ++ getEventsForSeason site (some s) none) []
    | _ =>
      match season with
      | some (c :: cs) => getEventsForSeason site (some (c :: cs)) none
      | _ => getEventsForSeason site none none
  match limit with
  | none => all_events
  | some n =>
    if n ≠ 0 ∧ n < all_events.length then all_events.take n
    else all_events

/-! ### Athlete resolution -/

/-- Lines 514-516: first athlete link whose text contains the query
case-insensitively. -/
def findMatchingLink (athlete_name : List Char) : List ALink → Option (List Char)
  | [] => none
  | l :: rest =>
    if containsSub (lowerL athlete_name) (lowerL l.text) then
      some (BASE_URL ++ l.href)
    else findMatchingLink athlete_name rest

/-- Lines 507-516: scan the given events (pages that fail to fetch are
skipped) for a matching athlete link. -/
def searchEventsForAthlete (site : Site) (athlete_name : List Char) :
    List EventRef → Option (List Char)
  | [] => none
  | ev :: rest =>
    match site.eventDocs ev.url with
    | none => searchEventsForAthlete site athlete_name rest
    | some doc =>
      match findMatchingLink athlete_name doc.athleteLinks with
      | some u => some u
      | none => searchEventsForAthlete site athlete_name rest

/-- Lines 503-516: per season, list at most 10 events and scan the
first 3 of them. -/
def searchSeasonsForAthlete (site : Site) (athlete_name : List Char) :
    List (List Char) → Option (List Char)
  | [] => none
  | s :: rest =>
    match searchEventsForAthlete site athlete_name
        ((getEventsForSeason site (some s) (some 10)).take 3) with
    | some u => some u
    | none => searchSeasonsForAthlete site athlete_name rest

/-- Line 501: the fixed recent seasons scanned by `_find_athlete_url`. -/
def recentSeasons : List (List Char) := ["2025".data, "2024".data, "2023".data]

/-- Lines 498-518, `_find_athlete_url`. -/
def findAthleteUrl (site : Site) (athlete_name : List Char) : Option (List Char) :=
  searchSeasonsForAthlete site athlete_name recentSeasons

/-- Lines 324-356: resolve `(athlete_url, athlete_name)` from either a
direct profile URL or a name search; `none` models every early
`return pd.DataFrame()`. -/
def resolveAthlete (site : Site) (nameOrUrl : List Char) :
    Option (List Char × List Char) :=
  if begins "http".data nameOrUrl then
    match site.profilePages nameOrUrl with
    | none => none
    | some h2 =>
      some (nameOrUrl, match h2 with
        | some t => stripChars t
        | none => "Unknown".data)
  else
    match findAthleteUrl site nameOrUrl with
    | none => none
    | some url =>
      match site.profilePages url with
      | none => none
      | some h2 =>
        some (url, match h2 with
          | some t => stripChars t
          | none => nameOrUrl)

/-! ### Deduplication (`drop_duplicates(subset=[...], keep='first')`) -/

/-- Line 401's subset: `(Event Name, Discipline, Time)`. -/
def dedupKey (r : ResultRecord) : List Char × List Char × List Char :=
  (r.event_name, r.discipline, r.time)

/-- Keep each record whose key has not been seen yet. -/
def dedupAux (seen : List (List Char × List Char × List Char)) :
    List ResultRecord → List ResultRecord
  | [] => []
  | r :: rest =>
    if dedupKey r ∈ seen then dedupAux seen rest
    else r :: dedupAux (dedupKey r :: seen) rest

/-- Pandas `df.drop_duplicates(subset=['Event Name', 'Discipline', 'Time'],
keep='first')`. -/
def dedup (rs : List ResultRecord) : List ResultRecord := dedupAux [] rs

/-- The first record of `rs` whose key is `k`. -/
def firstWithKey (k : List Char × List Char × List Char)
    (rs : List ResultRecord) : Option ResultRecord :=
  rs.find? (fun r => decide (dedupKey r = k))

/-- Lines 360-362: the default seasons, `str(year)` for the 10 years
ending at the current one, descending. -/
def defaultSeasons (current_year : Nat) : List (List Char) :=
  (List.range 10).map (fun i => natToDec (current_year - i))

/-- Lines 310-411, `scrape_athlete_profile` (console printing dropped;
the returned DataFrame is the deduplicated record list). -/
def scrapeAthleteProfile (site : Site) (nameOrUrl : List Char)
    (seasons_to_search : Option (List (List Char))) (current_year : Nat) :
    List ResultRecord :=
  match resolveAthlete site nameOrUrl with
  | none => []
  | some (athlete_url, athlete_name) =>
    let seasons := seasons_to_search.getD (defaultSeasons current_year)
    let all_results := seasons.foldl (fun acc s =>
      (getEventsForSeason site (some s) none).foldl (fun acc2 ev =>
        acc2 ++ getAthleteResultsFromEvent site ev.url ev.name
          athlete_name athlete_url) acc) []
    dedup all_results

/-- Modelled from the spec's words, for comparison with `woodInfoOf`
(deliberately NOT from the source): the wood description is "the first
paragraph-like text block encountered after the anchor that contains
the literal marker phrase". -/
def woodInfoSpec (paragraphs : List (List Char)) : List Char :=
  match paragraphs.find? (fun p => containsSub "Competition Wood:".data p) with
  | some p =>
    match searchWoodMarker p with
    | some g => stripChars g
    | none => []
  | none => []

/-! ### Concrete documents and records used by witnesses and
counterexamples -/

/-- A row with exactly 4 cells whose athlete name matches the query. -/
def cexRow4 : List Cell :=
  [⟨"1".data, none⟩, ⟨"John Smith".data, none⟩, ⟨"USA".data, none⟩,
   ⟨"10".data, none⟩]

/-- A row with 6 cells, the sixth being a marker cell. -/
def cexRow6 : List Cell :=
  [⟨"1".data, none⟩, ⟨"Jane".data, none⟩, ⟨"USA".data, none⟩,
   ⟨"10".data, none⟩, ⟨"12.3".data, none⟩, ⟨"WR".data, none⟩]

/-- The record `rowToRecord` produces from `cexRow6`. -/
def cexRec10 : ResultRecord :=
  ⟨[], "Jane".data, "UH".data, "12.3".data, [], [], "d".data, "Ev".data,
   "WR".data⟩

/-- Paragraph list whose FIRST element lacks the wood marker while the
SECOND carries it. -/
def cexParas : List (List Char) :=
  ["Results below.".data,
   "Competition Wood: **WhitePine (32 cm diameter)**".data]

/-- A section with `cexParas` and one data row after the header. -/
def cexSec4 : DisSection :=
  ⟨cexParas,
   some [[], [⟨"1".data, none⟩, ⟨"Al".data, none⟩, ⟨"N".data, none⟩,
              ⟨"50".data, none⟩]]⟩

/-- The record parsed from `cexSec4`'s data row when no wood text is
found. -/
def cexRec4 : ResultRecord :=
  ⟨[], "Al".data, "UH".data, [], [], [], "d".data, "E".data, []⟩

/-- A discipline section holding a wood paragraph and one data row. -/
def exSec5 : DisSection :=
  ⟨["Competition Wood: **WhitePine (32 cm diameter)**".data],
   some [[⟨"Rank".data, none⟩],
         [⟨"1".data, none⟩,
          ⟨"Jane Doe".data, some ⟨"Jane Doe".data, "/Athlete/7".data⟩⟩,
          ⟨"USA".data, none⟩, ⟨"100".data, none⟩, ⟨"12.34".data, none⟩]]⟩

/-- An event page whose only round anchor is the `Round2` variant. -/
def exDoc5 : EventDoc :=
  ⟨"May 1".data, "Oslo".data, [("Round2StandingBlockChop".data, exSec5)], []⟩

/-- A site serving `exDoc5` for the event URL `"E5"`. -/
def exSite5 : Site :=
  ⟨fun _ => none, fun u => if u == "E5".data then some exDoc5 else none,
   fun _ => none⟩

def exEvent5 : EventRef := ⟨"Event5".data, "E5".data, [], []⟩

/-- A site whose event pages have no round anchors at all. -/
def exSiteNoAnchor : Site :=
  ⟨fun _ => none, fun _ => some ⟨[], [], [], []⟩, fun _ => none⟩

/-- A listing page with a single event row. -/
def exSite7 : Site :=
  ⟨fun _ => some [⟨some ⟨"Event A".data, "/Event/1".data⟩, []⟩],
   fun _ => none, fun _ => none⟩

/-- A section whose single data row names an athlete that merely
CONTAINS the queried name `"Smith"` as a substring. -/
def exSec9 : DisSection :=
  ⟨[], some [[],
    [⟨"1".data, none⟩,
     ⟨"John Smithson".data, some ⟨"John Smithson".data, "/Athlete/99".data⟩⟩,
     ⟨"AUS".data, none⟩, ⟨"90".data, none⟩, ⟨"13.5".data, none⟩]]⟩

def exDoc9 : EventDoc :=
  ⟨"Jun 2".data, [], [("Round1UnderhandChop".data, exSec9)], []⟩

def exSite9 : Site := ⟨fun _ => none, fun _ => some exDoc9, fun _ => none⟩

/-- The record the per-athlete scan emits from `exSec9`'s row: it
carries the resolved profile URL, not the row's own link target. -/
def exRec9 : ResultRecord :=
  ⟨"RESOLVED".data, "John Smithson".data, "UH".data, "13.5".data, [], [],
   "Jun 2".data, "Ev9".data, []⟩

/-- Three records, the third sharing its `(event, discipline, time)` key
with the first. -/
def recA : ResultRecord :=
  ⟨[], "A".data, "UH".data, "12".data, [], [], [], "E1".data, []⟩

def recB : ResultRecord :=
  ⟨[], "B".data, "SB".data, "13".data, [], [], [], "E1".data, []⟩

def recA2 : ResultRecord :=
  ⟨[], "A two".data, "UH".data, "12".data, [], [], [], "E1".data, []⟩

/-- A site every fetch of which fails. -/
def emptySite : Site := ⟨fun _ => none, fun _ => none, fun _ => none⟩

/-! ### Character-class facts and list scanning lemmas -/

lemma isSpaceC_not_digit {c : Char} (h : isSpaceC c = true) : isDigitC c = false := by
  simp only [isSpaceC, Bool.or_eq_true, beq_iff_eq] at h
  simp only [isDigitC, Bool.and_eq_false_iff, decide_eq_false_iff_not]
  omega

lemma isAlphaC_not_digit {c : Char} (h : isAlphaC c = true) : isDigitC c = false := by
  simp only [isAlphaC, Bool.or_eq_true, Bool.and_eq_true, decide_eq_true_eq] at h
  simp only [isDigitC, Bool.and_eq_false_iff, decide_eq_false_iff_not]
  omega

lemma isSpaceC_not_alpha {c : Char} (h : isSpaceC c = true) : isAlphaC c = false := by
  simp only [isSpaceC, Bool.or_eq_true, beq_iff_eq] at h
  simp only [isAlphaC, Bool.or_eq_false_iff, Bool.and_eq_false_iff,
    decide_eq_false_iff_not]
  omega

lemma takeWhile_all_app (p : Char → Bool) (l₁ l₂ : List Char)
    (h1 : ∀ c ∈ l₁, p c = true) (h2 : ∀ c, l₂.head? = some c → p c = false) :
    (l₁ ++ l₂).takeWhile p = l₁ := by
  induction l₁ with
  | nil =>
    cases l₂ with
    | nil => rfl
    | cons c t => simp [List.takeWhile_cons, h2 c rfl]
  | cons c cs ih =>
    have hc : p c = true := h1 c (by simp)
    simp only [List.cons_append, List.takeWhile_cons, hc, if_true]
    rw [ih (fun x hx => h1 x (by simp [hx]))]

lemma dropWhile_all_app (p : Char → Bool) (l₁ l₂ : List Char)
    (h1 : ∀ c ∈ l₁, p c = true) (h2 : ∀ c, l₂.head? = some c → p c = false) :
    (l₁ ++ l₂).dropWhile p = l₂ := by
  induction l₁ with
  | nil =>
    cases l₂ with
    | nil => rfl
    | cons c t => simp [List.dropWhile_cons, h2 c rfl]
  | cons c cs ih =>
    have hc : p c = true := h1 c (by simp)
    simp only [List.cons_append, List.dropWhile_cons, hc, if_true]
    exact ih (fun x hx => h1 x (by simp [hx]))

lemma searchCm_skip (pre t : List Char) (h : ∀ c ∈ pre, isDigitC c = false) :
    searchCm (pre ++ t) = searchCm t := by
  induction pre with
  | nil => rfl
  | cons c cs ih =>
    have hc : isDigitC c = false := h c (by simp)
    simp only [List.cons_append, searchCm, hc, Bool.false_eq_true, if_false]
    exact ih (fun x hx => h x (by simp [hx]))

lemma searchSpecies_skip (pre t : List Char) (h : ∀ c ∈ pre, isAlphaC c = false) :
    searchSpecies (pre ++ t) = searchSpecies t := by
  induction pre with
  | nil => rfl
  | cons c cs ih =>
    have hc : isAlphaC c = false := h c (by simp)
    simp only [List.cons_append, searchSpecies, hc, Bool.false_eq_true, if_false]
    exact ih (fun x hx => h x (by simp [hx]))

/-- On input of the shape `<digits><ws>cm…` preceded by no digit, the size
regex captures exactly the digit run. -/
lemma searchCm_shape (d : Char) (ds' w2 rest : List Char)
    (hd : isDigitC d = true) (hds : ∀ c ∈ ds', isDigitC c = true)
    (hw2 : ∀ c ∈ w2, isSpaceC c = true) :
    searchCm (d :: (ds' ++ (w2 ++ ('c' :: 'm' :: rest)))) = some (d :: ds') := by
  have hhead : ∀ c, (w2 ++ ('c' :: 'm' :: rest)).head? = some c → isDigitC c = false := by
    intro c hc
    cases w2 with
    | nil => simp at hc; subst hc; decide
    | cons w ws =>
      simp at hc
      exact hc ▸ isSpaceC_not_digit (hw2 w (by simp))
  have htake : (ds' ++ (w2 ++ ('c' :: 'm' :: rest))).takeWhile isDigitC = ds' :=
    takeWhile_all_app _ _ _ hds hhead
  have hdrop : (ds' ++ (w2 ++ ('c' :: 'm' :: rest))).dropWhile isDigitC
      = w2 ++ ('c' :: 'm' :: rest) :=
    dropWhile_all_app _ _ _ hds hhead
  have hdrop2 : (w2 ++ ('c' :: 'm' :: rest)).dropWhile isSpaceC = 'c' :: 'm' :: rest := by
    refine dropWhile_all_app _ _ _ hw2 ?_
    intro c hc; simp at hc; subst hc; decide
  simp only [searchCm, hd, if_true, htake, hdrop, hdrop2]

/-- On input of the shape `<alpha><ws>(…`, the species regex captures
exactly the leading alphabetic run. -/
lemma searchSpecies_shape (a : Char) (sp' w1 rest : List Char)
    (ha : isAlphaC a = true) (hsp : ∀ c ∈ sp', isAlphaC c = true)
    (hw1 : ∀ c ∈ w1, isSpaceC c = true) :
    searchSpecies (a :: (sp' ++ (w1 ++ ('(' :: rest)))) = some (a :: sp') := by
  have hhead : ∀ c, (w1 ++ ('(' :: rest)).head? = some c → isAlphaC c = false := by
    intro c hc
    cases w1 with
    | nil => simp at hc; subst hc; decide
    | cons w ws =>
      simp at hc
      exact hc ▸ isSpaceC_not_alpha (hw1 w (by simp))
  have htake : (sp' ++ (w1 ++ ('(' :: rest))).takeWhile isAlphaC = sp' :=
    takeWhile_all_app _ _ _ hsp hhead
  have hdrop : (sp' ++ (w1 ++ ('(' :: rest))).dropWhile isAlphaC = w1 ++ ('(' :: rest) :=
    dropWhile_all_app _ _ _ hsp hhead
  have hdrop2 : (w1 ++ ('(' :: rest)).dropWhile isSpaceC = '(' :: rest := by
    refine dropWhile_all_app _ _ _ hw1 ?_
    intro c hc; simp at hc; subst hc; decide
  simp only [searchSpecies, ha, if_true, htake, hdrop, hdrop2]

/-! ### Claim C1 -/

/-- C1: proved as claimed. For every wood-description string of the shape
`<Species><ws>(<N><ws>cm …` (species a nonempty alphabetic run, `N` a
nonempty digit run), the size extraction yields the decimal string of
`N * 10` and the species extraction yields the alphabetic run before the
opening parenthesis; whenever a regex finds no match the corresponding
field is the empty string, each extraction independent of the other; and
`"WhitePine (32 cm diameter)"` yields size `"320"`, species `"WhitePine"`. -/
theorem C1_wood_extraction
    (sp w1 ds w2 rest : List Char)
    (hsp : sp ≠ []) (hspa : ∀ c ∈ sp, isAlphaC c = true)
    (hw1 : ∀ c ∈ w1, isSpaceC c = true)
    (hds : ds ≠ []) (hdsd : ∀ c ∈ ds, isDigitC c = true)
    (hw2 : ∀ c ∈ w2, isSpaceC c = true) :
    extractWood (sp ++ (w1 ++ ('(' :: (ds ++ (w2 ++ ('c' :: 'm' :: rest))))))
        = (natToDec (digitsToNat ds * 10), sp)
      ∧ (∀ s, searchCm s = none → (extractWood s).1 = [])
      ∧ (∀ s, searchSpecies s = none → (extractWood s).2 = [])
      ∧ extractWood "WhitePine (32 cm diameter)".data
          = ("320".data, "WhitePine".data) := by
  refine ⟨?_, ?_, ?_, by decide⟩
  · obtain ⟨a, sp', rfl⟩ : ∃ a sp', sp = a :: sp' := by
      cases sp with
      | nil => exact absurd rfl hsp
      | cons a sp' => exact ⟨a, sp', rfl⟩
    obtain ⟨d, ds', rfl⟩ : ∃ d ds', ds = d :: ds' := by
      cases ds with
      | nil => exact absurd rfl hds
      | cons d ds' => exact ⟨d, ds', rfl⟩
    have hcm : searchCm ((a :: sp') ++ (w1 ++ ('(' ::
        ((d :: ds') ++ (w2 ++ ('c' :: 'm' :: rest))))))
        = some (d :: ds') := by
      rw [searchCm_skip (a :: sp') _
        (fun c hc => isAlphaC_not_digit (hspa c hc))]
      rw [searchCm_skip w1 _ (fun c hc => isSpaceC_not_digit (hw1 c hc))]
      rw [show ('(' :: ((d :: ds') ++ (w2 ++ ('c' :: 'm' :: rest))))
          = ['('] ++ ((d :: ds') ++ (w2 ++ ('c' :: 'm' :: rest))) from rfl]
      rw [searchCm_skip ['('] _ (by intro c hc; simp at hc; subst hc; decide)]
      exact searchCm_shape d ds' w2 rest (hdsd d (by simp))
        (fun c hc => hdsd c (by simp [hc])) hw2
    have hspc : searchSpecies ((a :: sp') ++ (w1 ++ ('(' ::
        ((d :: ds') ++ (w2 ++ ('c' :: 'm' :: rest))))))
        = some (a :: sp') :=
      searchSpecies_shape a sp' w1 _ (hspa a (by simp))
        (fun c hc => hspa c (by simp [hc])) hw1
    simp only [List.cons_append] at hcm hspc ⊢
    simp only [extractWood, List.isEmpty_cons, Bool.false_eq_true, if_false,
      hcm, hspc]
  · intro s h
    unfold extractWood
    split
    · rfl
    · simp only [h]
  · intro s h
    unfold extractWood
    split
    · rfl
    · simp only [h]

/-! ### Row-level helper lemmas -/

/-- The full-event row parser produces a record exactly when the row
has at least 4 cells. -/
lemma rowToRecord_isSome (dn en ed wi : List Char) (cells : List Cell) :
    (rowToRecord dn en ed wi cells).isSome = decide (4 ≤ cells.length) := by
  unfold rowToRecord
  split
  case isTrue h =>
    simp only [Option.isSome_none]
    symm
    simp only [decide_eq_false_iff_not]
    omega
  case isFalse h =>
    simp only [Option.isSome_some]
    symm
    simp only [decide_eq_true_eq]
    omega

/-- A produced record's wood fields come from `extractWood wi`. -/
lemma rowToRecord_wood {dn en ed wi : List Char} {cells : List Cell}
    {r : ResultRecord} (h : rowToRecord dn en ed wi cells = some r) :
    r.size = (extractWood wi).1 ∧ r.species = (extractWood wi).2 := by
  unfold rowToRecord at h
  split at h
  · exact absurd h (by simp)
  · injection h with h
    subst h
    exact ⟨rfl, rfl⟩

/-- A produced record's markers string is the join of `rowMarkers`. -/
lemma rowToRecord_markers {dn en ed wi : List Char} {cells : List Cell}
    {r : ResultRecord} (h : rowToRecord dn en ed wi cells = some r) :
    r.special_markers = joinSep ", ".data (rowMarkers cells) := by
  unfold rowToRecord at h
  split at h
  · exact absurd h (by simp)
  · injection h with h
    subst h
    rfl

/-- A record emitted by the per-athlete row parser carries the resolved
athlete URL. -/
lemma athleteRowToRecord_fields {an au dn en ed sz sp : List Char}
    {cells : List Cell} {r : ResultRecord}
    (h : athleteRowToRecord an au dn en ed sz sp cells = some r) :
    r.profile_url = au
    ∧ r.special_markers = (if 5 < cells.length then
        stripChars (cells.getD 5 emptyCell).text else []) := by
  unfold athleteRowToRecord at h
  split at h
  · exact absurd h (by simp)
  · split at h
    · injection h with h
      subst h
      exact ⟨rfl, rfl⟩
    · exact absurd h (by simp)

/-- Two full-event row parses of the same rows with different wood
descriptions keep or drop exactly the same rows. -/
lemma filterMap_rowToRecord_length (dn en ed w1 w2 : List Char)
    (l : List (List Cell)) :
    (l.filterMap (rowToRecord dn en ed w1)).length
      = (l.filterMap (rowToRecord dn en ed w2)).length := by
  induction l with
  | nil => rfl
  | cons c cs ih =>
    simp only [List.filterMap_cons]
    have h1 := rowToRecord_isSome dn en ed w1 c
    have h2 := rowToRecord_isSome dn en ed w2 c
    cases hx : rowToRecord dn en ed w1 c with
    | none =>
      cases hy : rowToRecord dn en ed w2 c with
      | none => exact ih
      | some r =>
        rw [hx] at h1
        rw [hy] at h2
        simp only [Option.isSome_none, Option.isSome_some] at h1 h2
        rw [← h1] at h2
        exact absurd h2 (by simp)
    | some r =>
      cases hy : rowToRecord dn en ed w2 c with
      | none =>
        rw [hx] at h1
        rw [hy] at h2
        simp only [Option.isSome_none, Option.isSome_some] at h1 h2
        rw [← h1] at h2
        exact absurd h2 (by simp)
      | some r' => simp only [List.length_cons, ih]

/-! ### Claim C2 -/

/-- C2 counterexample ❌ (refutes the claim as stated): the claim says
a record is produced iff a row has at least 4 cells, in both paths;
but the per-athlete scan skips this 4-cell row even though its athlete
name matches the query. -/
theorem C2_counterexample :
    cexRow4.length = 4
    ∧ containsSub (lowerL "Smith".data) (lowerL (rowName cexRow4)) = true
    ∧ athleteRowToRecord "Smith".data "u".data "Underhand Chop".data
        "Ev".data "d".data [] [] cexRow4 = none := by
  decide

/-- C2, amended ✅ (proved): in the full-event parse a record is
produced iff the row has at least 4 cells; in the per-athlete scan a
record is produced iff the row has at least 5 cells AND its athlete
name case-insensitively contains the queried name; in both paths the
header row's content is irrelevant (it is always skipped). -/
theorem C2_row_cell_threshold :
    (∀ dn en ed wi cells,
        (rowToRecord dn en ed wi cells).isSome = true ↔ 4 ≤ cells.length)
    ∧ (∀ an au dn en ed sz sp cells,
        (athleteRowToRecord an au dn en ed sz sp cells).isSome = true
          ↔ (5 ≤ cells.length
             ∧ containsSub (lowerL an) (lowerL (rowName cells)) = true))
    ∧ (∀ dn en ed loc paras r0 r0' rows,
        parseDisciplineSection dn en ed loc ⟨paras, some (r0 :: rows)⟩
          = parseDisciplineSection dn en ed loc ⟨paras, some (r0' :: rows)⟩) := by
  refine ⟨?_, ?_, ?_⟩
  · intro dn en ed wi cells
    rw [rowToRecord_isSome]
    simp
  · intro an au dn en ed sz sp cells
    unfold athleteRowToRecord
    split
    case isTrue h =>
      simp only [Option.isSome_none, Bool.false_eq_true, false_iff, not_and]
      intro h5
      omega
    case isFalse h =>
      split
      case isTrue hm =>
        simp only [Option.isSome_some, true_iff]
        exact ⟨by omega, hm⟩
      case isFalse hm =>
        simp only [Option.isSome_none, Bool.false_eq_true, false_iff, not_and]
        intro _
        exact fun hc => hm hc
  · intro dn en ed loc paras r0 r0' rows
    rfl

/-- Witness for C2: a 4-cell row does yield a record in the full-event
parse. -/
theorem C2_row_cell_threshold_witness :
    (rowToRecord "Underhand Chop".data "Ev".data "d".data [] cexRow4).isSome
      = true :=
  (C2_row_cell_threshold.1 "Underhand Chop".data "Ev".data "d".data []
    cexRow4).mpr (by decide)

/-! ### Claim C3 -/

/-- C3 counterexample: The claim says every label other than the two
supported ones maps to an empty code; the code maps the label
`"Hot Saw"` (neither of the two) to `"UH"`. -/
theorem C3_counterexample :
    "Hot Saw".data ≠ "Standing Block Chop".data
    ∧ "Hot Saw".data ≠ "Underhand Chop".data
    ∧ disciplineAbbrev "Hot Saw".data ≠ [] := by
  decide

/-- C3, amended: The mapping sends `"Standing Block Chop"` to
`"SB"` and `"Underhand Chop"` to `"UH"`, two distinct codes; every
label containing `"Standing Block"` maps to `"SB"`, every other label
— including unsupported ones — maps to `"UH"`; no label ever maps to
an empty code. -/
theorem C3_discipline_abbrev :
    disciplineAbbrev "Standing Block Chop".data = "SB".data
    ∧ disciplineAbbrev "Underhand Chop".data = "UH".data
    ∧ "SB".data ≠ "UH".data
    ∧ (∀ d, containsSub "Standing Block".data d = true →
        disciplineAbbrev d = "SB".data)
    ∧ (∀ d, containsSub "Standing Block".data d = false →
        disciplineAbbrev d = "UH".data)
    ∧ (∀ d, disciplineAbbrev d ≠ []) := by
  refine ⟨by decide, by decide, by decide, ?_, ?_, ?_⟩
  · intro d h
    simp [disciplineAbbrev, h]
  · intro d h
    simp [disciplineAbbrev, h]
  · intro d
    unfold disciplineAbbrev
    split
    · decide
    · decide

/-- Witness for C3 at the two label families. -/
theorem C3_discipline_abbrev_witness :
    disciplineAbbrev "Standing Block Chop".data = "SB".data
    ∧ disciplineAbbrev "Hot Saw".data = "UH".data :=
  ⟨C3_discipline_abbrev.2.2.2.1 "Standing Block Chop".data (by decide),
   C3_discipline_abbrev.2.2.2.2.1 "Hot Saw".data (by decide)⟩

/-! ### Claim C10 -/

/-- C10: proved as claimed. Only the sixth cell is ever inspected for markers, so the
markers collection of every record holds zero or one entry: the list
built by the full-event parse has length at most 1 (and the record
stores its join), and the per-athlete parse stores just the sixth
cell's stripped text (or nothing). -/
theorem C10_markers_at_most_one :
    (∀ cells, (rowMarkers cells).length ≤ 1)
    ∧ (∀ dn en ed wi cells r, rowToRecord dn en ed wi cells = some r →
        r.special_markers = joinSep ", ".data (rowMarkers cells))
    ∧ (∀ an au dn en ed sz sp cells r,
        athleteRowToRecord an au dn en ed sz sp cells = some r →
        r.special_markers = (if 5 < cells.length then
          stripChars (cells.getD 5 emptyCell).text else [])) := by
  refine ⟨?_, ?_, ?_⟩
  · intro cells
    unfold rowMarkers
    split
    · split
      · simp
      · simp
    · simp
  · intro dn en ed wi cells r h
    exact rowToRecord_markers h
  · intro an au dn en ed sz sp cells r h
    exact (athleteRowToRecord_fields h).2

/-- Witness for C10 on a 6-cell row with marker `"WR"`. -/
theorem C10_markers_at_most_one_witness :
    (rowMarkers cexRow6).length ≤ 1
    ∧ cexRec10.special_markers = joinSep ", ".data (rowMarkers cexRow6) :=
  ⟨C10_markers_at_most_one.1 cexRow6,
   C10_markers_at_most_one.2.1 "Underhand Chop".data "Ev".data "d".data []
     cexRow6 cexRec10 (by decide)⟩

/-! ### Claim C4 -/

/-- C4 counterexample: The claim says the wood description comes
from the first paragraph after the anchor that CONTAINS the marker
phrase; but the code inspects only the very first paragraph
(`find_next('p')`): here the marker sits in the second paragraph, the
spec-described lookup finds it, the code yields nothing, and the
section's parsed record gets empty wood fields. -/
theorem C4_counterexample :
    woodInfoOf cexParas = []
    ∧ woodInfoSpec cexParas = "WhitePine (32 cm diameter)".data
    ∧ woodInfoOf cexParas ≠ woodInfoSpec cexParas
    ∧ (parseDisciplineSection "Underhand Chop".data "E".data "d".data []
        cexSec4).map (fun r => (r.size, r.species)) = [([], [])] := by
  decide

/-- C4, amended: Only the FIRST paragraph-like block after the
anchor is consulted: the wood description is taken from it exactly when
it contains the marker phrase, and otherwise — including when no block
exists — the wood fields are left empty while the section's rows are
still parsed (the same rows are kept or dropped whatever the
paragraphs say). -/
theorem C4_wood_first_paragraph :
    (∀ p ps, woodInfoOf (p :: ps) = woodInfoOf [p])
    ∧ (∀ p ps, containsSub "Competition Wood:".data p = false →
        woodInfoOf (p :: ps) = [])
    ∧ woodInfoOf [] = []
    ∧ (∀ dn en ed loc rows paras,
        (parseDisciplineSection dn en ed loc ⟨paras, some rows⟩).length
          = (parseDisciplineSection dn en ed loc ⟨[], some rows⟩).length)
    ∧ (∀ dn en ed loc rows paras r, woodInfoOf paras = [] →
        r ∈ parseDisciplineSection dn en ed loc ⟨paras, some rows⟩ →
        r.size = [] ∧ r.species = []) := by
  refine ⟨?_, ?_, rfl, ?_, ?_⟩
  · intro p ps
    rfl
  · intro p ps h
    simp only [woodInfoOf, h, Bool.false_eq_true, if_false]
  · intro dn en ed loc rows paras
    unfold parseDisciplineSection
    exact filterMap_rowToRecord_length dn en ed (woodInfoOf paras)
      (woodInfoOf []) (rows.drop 1)
  · intro dn en ed loc rows paras r hw hr
    unfold parseDisciplineSection at hr
    rw [List.mem_filterMap] at hr
    obtain ⟨cells, _, hsome⟩ := hr
    have := rowToRecord_wood hsome
    rw [hw] at this
    exact this

/-- Witness for C4: a markerless first paragraph yields empty wood
fields on the parsed record. -/
theorem C4_wood_first_paragraph_witness :
    woodInfoOf ["Results below.".data] = []
    ∧ (cexRec4.size = [] ∧ cexRec4.species = []) :=
  ⟨C4_wood_first_paragraph.2.1 "Results below.".data [] (by decide),
   C4_wood_first_paragraph.2.2.2.2 "Underhand Chop".data "E".data "d".data
     [] [[], [⟨"1".data, none⟩, ⟨"Al".data, none⟩, ⟨"N".data, none⟩,
              ⟨"50".data, none⟩]] cexParas cexRec4 (by decide) (by decide)⟩

/-! ### Claim C5 -/

/-- C5: proved as claimed. For each discipline the locator tries
`Round1<D>`, `Round2<D>`, `Round3<D>` in that order and uses the first
anchor present; both code paths try exactly these id lists; a document
with only the `Round2` variant is still found and parsed into its
records; a document with none of the three anchors contributes no
records without failing. -/
theorem C5_anchor_fallback (doc : EventDoc) (d : List Char) (s : DisSection) :
    (findById doc ("Round1".data ++ removeSpaces d) = some s →
      findFirstAnchor doc (roundIds d) = some s)
    ∧ (findById doc ("Round1".data ++ removeSpaces d) = none →
       findById doc ("Round2".data ++ removeSpaces d) = some s →
      findFirstAnchor doc (roundIds d) = some s)
    ∧ (findById doc ("Round1".data ++ removeSpaces d) = none →
       findById doc ("Round2".data ++ removeSpaces d) = none →
       findById doc ("Round3".data ++ removeSpaces d) = some s →
      findFirstAnchor doc (roundIds d) = some s)
    ∧ (findById doc ("Round1".data ++ removeSpaces d) = none →
       findById doc ("Round2".data ++ removeSpaces d) = none →
       findById doc ("Round3".data ++ removeSpaces d) = none →
      findFirstAnchor doc (roundIds d) = none)
    ∧ roundIds "Underhand Chop".data
        = ["Round1UnderhandChop".data, "Round2UnderhandChop".data,
           "Round3UnderhandChop".data]
    ∧ roundIds "Standing Block Chop".data
        = ["Round1StandingBlockChop".data, "Round2StandingBlockChop".data,
           "Round3StandingBlockChop".data]
    ∧ parseEventResults exSite5 exEvent5
        = [⟨BASE_URL ++ "/Athlete/7".data, "Jane Doe".data, "SB".data,
            "12.34".data, "320".data, "WhitePine".data, "May 1".data,
            "Event5".data, []⟩]
    ∧ parseEventResults exSiteNoAnchor exEvent5 = [] := by
  refine ⟨?_, ?_, ?_, ?_, by decide, by decide, by decide, by decide⟩
  · intro h1
    simp only [roundIds, findFirstAnchor, h1]
  · intro h1 h2
    simp only [roundIds, findFirstAnchor, h1, h2]
  · intro h1 h2 h3
    simp only [roundIds, findFirstAnchor, h1, h2, h3]
  · intro h1 h2 h3
    simp only [roundIds, findFirstAnchor, h1, h2, h3]

/-- Witness for C5: the `Round2`-only document is located through the
fallback. -/
theorem C5_anchor_fallback_witness :
    findFirstAnchor exDoc5 (roundIds "Standing Block Chop".data)
      = some exSec5 :=
  (C5_anchor_fallback exDoc5 "Standing Block Chop".data exSec5).2.1
    (by decide) (by decide)

/-! ### Deduplication lemmas -/

lemma dedupAux_nil (seen : List (List Char × List Char × List Char)) :
    dedupAux seen [] = [] := rfl

lemma dedupAux_cons (seen : List (List Char × List Char × List Char))
    (x : ResultRecord) (l : List ResultRecord) :
    dedupAux seen (x :: l)
      = if dedupKey x ∈ seen then dedupAux seen l
        else x :: dedupAux (dedupKey x :: seen) l := rfl

/-- Every record kept by `dedupAux` has an unseen key and is the first
element of the input with its key. -/
lemma dedupAux_find (l : List ResultRecord) :
    ∀ seen, ∀ r' ∈ dedupAux seen l,
      dedupKey r' ∉ seen
      ∧ l.find? (fun r => decide (dedupKey r = dedupKey r')) = some r' := by
  induction l with
  | nil =>
    intro seen r' h
    rw [dedupAux_nil] at h
    exact absurd h (by simp)
  | cons x rest ih =>
    intro seen r' h
    rw [dedupAux_cons] at h
    by_cases hk : dedupKey x ∈ seen
    · rw [if_pos hk] at h
      obtain ⟨hns, hfind⟩ := ih seen r' h
      refine ⟨hns, ?_⟩
      have hb : decide (dedupKey x = dedupKey r') = false := by
        simp only [decide_eq_false_iff_not]
        intro he
        exact hns (he ▸ hk)
      rw [List.find?_cons]
      simp only [hb]
      exact hfind
    · rw [if_neg hk] at h
      rcases List.mem_cons.mp h with rfl | h2
      · refine ⟨hk, ?_⟩
        rw [List.find?_cons_of_pos _ (by simp)]
      · obtain ⟨hns, hfind⟩ := ih _ r' h2
        have hne : dedupKey r' ≠ dedupKey x := by
          intro he
          exact hns (by rw [he]; exact List.mem_cons_self _ _)
        refine ⟨fun hs => hns (List.mem_cons_of_mem _ hs), ?_⟩
        have hb : decide (dedupKey x = dedupKey r') = false := by
          simp only [decide_eq_false_iff_not]
          exact fun he => hne he.symm
        rw [List.find?_cons]
        simp only [hb]
        exact hfind

/-- Every input record's key is already seen or represented in the
output. -/
lemma dedupAux_covers (l : List ResultRecord) :
    ∀ seen, ∀ r ∈ l, dedupKey r ∈ seen
      ∨ ∃ r', r' ∈ dedupAux seen l ∧ dedupKey r' = dedupKey r := by
  induction l with
  | nil =>
    intro seen r h
    exact absurd h (by simp)
  | cons x rest ih =>
    intro seen r h
    rw [dedupAux_cons]
    by_cases hk : dedupKey x ∈ seen
    · rw [if_pos hk]
      rcases List.mem_cons.mp h with rfl | h2
      · exact Or.inl hk
      · exact ih seen r h2
    · rw [if_neg hk]
      rcases List.mem_cons.mp h with rfl | h2
      · exact Or.inr ⟨r, List.mem_cons_self _ _, rfl⟩
      · rcases ih (dedupKey x :: seen) r h2 with hmem | ⟨r', hr', hkey⟩
        · rcases List.mem_cons.mp hmem with heq | hseen
          · exact Or.inr ⟨x, List.mem_cons_self _ _, heq.symm⟩
          · exact Or.inl hseen
        · exact Or.inr ⟨r', List.mem_cons_of_mem _ hr', hkey⟩

/-- The keys of `dedupAux`'s output are pairwise distinct. -/
lemma dedupAux_keys_nodup (l : List ResultRecord) :
    ∀ seen, ((dedupAux seen l).map dedupKey).Nodup := by
  induction l with
  | nil =>
    intro seen
    rw [dedupAux_nil]
    simp
  | cons x rest ih =>
    intro seen
    rw [dedupAux_cons]
    by_cases hk : dedupKey x ∈ seen
    · rw [if_pos hk]
      exact ih seen
    · rw [if_neg hk, List.map_cons]
      refine List.nodup_cons.mpr ⟨?_, ih _⟩
      intro hmem
      rw [List.mem_map] at hmem
      obtain ⟨r', hr', hkey⟩ := hmem
      exact (dedupAux_find rest _ r' hr').1 (by rw [hkey]; exact List.mem_cons_self _ _)

/-- The scan `dedupAux` is idempotent for a fixed seen set. -/
lemma dedupAux_idem (l : List ResultRecord) :
    ∀ seen, dedupAux seen (dedupAux seen l) = dedupAux seen l := by
  induction l with
  | nil =>
    intro seen
    rfl
  | cons x rest ih =>
    intro seen
    rw [dedupAux_cons]
    by_cases hk : dedupKey x ∈ seen
    · rw [if_pos hk]
      exact ih seen
    · rw [if_neg hk, dedupAux_cons, if_neg hk, ih (dedupKey x :: seen)]

/-! ### Claim C6 -/

/-- C6: proved as claimed. Deduplication collapses records sharing an
`(event name, discipline, time)` key: every input key is represented in
the output, every output record is the FIRST input record bearing its
key, output keys are pairwise distinct, and the step is idempotent. -/
theorem C6_dedup (rs : List ResultRecord) :
    (∀ r ∈ rs, ∃ r', r' ∈ dedup rs ∧ dedupKey r' = dedupKey r)
    ∧ (∀ r' ∈ dedup rs, firstWithKey (dedupKey r') rs = some r')
    ∧ ((dedup rs).map dedupKey).Nodup
    ∧ dedup (dedup rs) = dedup rs := by
  refine ⟨?_, ?_, dedupAux_keys_nodup rs [], dedupAux_idem rs []⟩
  · intro r h
    rcases dedupAux_covers rs [] r h with hmem | hex
    · exact absurd hmem (by simp)
    · exact hex
  · intro r' h
    exact (dedupAux_find rs [] r' h).2

/-- Witness for C6: with two records of equal key the first survives,
and re-running changes nothing. -/
theorem C6_dedup_witness :
    firstWithKey (dedupKey recA) [recA, recB, recA2] = some recA
    ∧ dedup (dedup [recA, recB, recA2]) = dedup [recA, recB, recA2] :=
  ⟨(C6_dedup [recA, recB, recA2]).2.1 recA (by decide),
   (C6_dedup [recA, recB, recA2]).2.2.2⟩

/-! ### Claim C7 -/

lemma foldl_append_eq_flatten (f : List Char → List EventRef) :
    ∀ (ss : List (List Char)) (acc : List EventRef),
      ss.foldl (fun a s => a ++ f s) acc = acc ++ (ss.map f).flatten := by
  intro ss
  induction ss with
  | nil =>
    intro acc
    simp
  | cons s rest ih =>
    intro acc
    simp only [List.foldl_cons, List.map_cons, List.flatten_cons, ih,
      List.append_assoc]

/-- C7 counterexample: The claim says a present limit `N` truncates
the concatenated list to its first `N` entries; but the Python
truthiness test `if limit and ...` ignores a present limit of `0`, so
the whole list is returned instead of its first 0 entries. -/
theorem C7_counterexample :
    getEvents exSite7 none (some ["2024".data]) (some 0)
      ≠ (["2024".data].map
          (fun s => getEventsForSeason exSite7 (some s) none)).flatten.take 0 := by
  decide

/-- C7, amended: for a NONEMPTY seasons list, a present POSITIVE limit
`N` truncates the event list to its first `N` entries only after the
per-season lists — each fetched with no limit — are concatenated in
season order; a limit of `0` (and an absent limit) leaves the
concatenation untruncated; and an EMPTY seasons list is falsy to
line 62's `if seasons_list:`, so it behaves exactly like an absent
one and falls back to the single-season/default-view fetch. -/
theorem C7_limit_after_concat (site : Site) (ss : List (List Char)) (n : Nat)
    (hn : 0 < n) (hss : ss ≠ []) :
    getEvents site none (some ss) (some n)
      = ((ss.map (fun s => getEventsForSeason site (some s) none)).flatten).take n
    ∧ getEvents site none (some ss) (some 0)
      = (ss.map (fun s => getEventsForSeason site (some s) none)).flatten
    ∧ getEvents site none (some ss) none
      = (ss.map (fun s => getEventsForSeason site (some s) none)).flatten
    ∧ (∀ season lim, getEvents site season (some []) lim
        = getEvents site season none lim) := by
  obtain ⟨s0, ss', rfl⟩ : ∃ s0 ss', ss = s0 :: ss' := by
    cases ss with
    | nil => exact absurd rfl hss
    | cons s0 ss' => exact ⟨s0, ss', rfl⟩
  have hfold : (s0 :: ss').foldl
      (fun a s => a ++ getEventsForSeason site (some s) none) []
      = ((s0 :: ss').map (fun s => getEventsForSeason site (some s) none)).flatten := by
    rw [foldl_append_eq_flatten]
    rfl
  refine ⟨?_, ?_, ?_, ?_⟩
  · unfold getEvents
    dsimp only
    rw [hfold]
    by_cases hlt : n < (((s0 :: ss').map
        (fun s => getEventsForSeason site (some s) none)).flatten).length
    · rw [if_pos ⟨by omega, hlt⟩]
    · rw [if_neg (fun hc => hlt hc.2),
        List.take_of_length_le (Nat.le_of_not_lt hlt)]
  · unfold getEvents
    dsimp only
    rw [hfold, if_neg (fun hc => hc.1 rfl)]
  · unfold getEvents
    dsimp only
    exact hfold
  · intro season lim
    rfl

/-- Witness for C7 with a one-row listing and limit 1. -/
theorem C7_limit_after_concat_witness :
    getEvents exSite7 none (some ["2024".data]) (some 1)
      = ((["2024".data].map
          (fun s => getEventsForSeason exSite7 (some s) none)).flatten).take 1 :=
  (C7_limit_after_concat exSite7 ["2024".data] 1 (by decide) (by decide)).1

/-! ### Claim C8 -/

lemma findMatchingLink_none (an : List Char) (ls : List ALink)
    (h : ∀ l ∈ ls, containsSub (lowerL an) (lowerL l.text) = false) :
    findMatchingLink an ls = none := by
  induction ls with
  | nil => rfl
  | cons l rest ih =>
    have hl : containsSub (lowerL an) (lowerL l.text) = false := h l (by simp)
    simp only [findMatchingLink, hl, Bool.false_eq_true, if_false]
    exact ih (fun x hx => h x (by simp [hx]))

lemma searchEventsForAthlete_none (site : Site) (an : List Char)
    (evs : List EventRef)
    (h : ∀ ev ∈ evs, ∀ doc, site.eventDocs ev.url = some doc →
         ∀ l ∈ doc.athleteLinks, containsSub (lowerL an) (lowerL l.text) = false) :
    searchEventsForAthlete site an evs = none := by
  induction evs with
  | nil => rfl
  | cons ev rest ih =>
    cases hdoc : site.eventDocs ev.url with
    | none =>
      simp only [searchEventsForAthlete, hdoc]
      exact ih (fun e he => h e (by simp [he]))
    | some doc =>
      simp only [searchEventsForAthlete, hdoc,
        findMatchingLink_none an doc.athleteLinks (h ev (by simp) doc hdoc)]
      exact ih (fun e he => h e (by simp [he]))

lemma searchSeasonsForAthlete_none (site : Site) (an : List Char)
    (ss : List (List Char))
    (h : ∀ s ∈ ss, ∀ ev ∈ (getEventsForSeason site (some s) (some 10)).take 3,
         ∀ doc, site.eventDocs ev.url = some doc →
         ∀ l ∈ doc.athleteLinks, containsSub (lowerL an) (lowerL l.text) = false) :
    searchSeasonsForAthlete site an ss = none := by
  induction ss with
  | nil => rfl
  | cons s rest ih =>
    simp only [searchSeasonsForAthlete,
      searchEventsForAthlete_none site an _ (h s (by simp))]
    exact ih (fun s' hs' => h s' (by simp [hs']))

/-- C8: proved as claimed. If no athlete-profile link on any scanned page (the first 3
events of a 10-event listing for each of the seasons 2025, 2024, 2023)
case-insensitively contains the queried name, the resolver yields the
empty result set (and being a total function, it raises nothing). -/
theorem C8_unresolvable_name (site : Site) (nameq : List Char)
    (seasons : Option (List (List Char))) (cy : Nat)
    (hn : begins "http".data nameq = false)
    (h : ∀ s ∈ recentSeasons,
         ∀ ev ∈ (getEventsForSeason site (some s) (some 10)).take 3,
         ∀ doc, site.eventDocs ev.url = some doc →
         ∀ l ∈ doc.athleteLinks,
           containsSub (lowerL nameq) (lowerL l.text) = false) :
    scrapeAthleteProfile site nameq seasons cy = [] := by
  have hfind : findAthleteUrl site nameq = none :=
    searchSeasonsForAthlete_none site nameq recentSeasons h
  unfold scrapeAthleteProfile resolveAthlete
  simp only [hn, Bool.false_eq_true, if_false, hfind]

/-- Witness for C8 on a site with no reachable pages at all. -/
theorem C8_unresolvable_name_witness :
    scrapeAthleteProfile emptySite "Smith".data none 2025 = [] :=
  C8_unresolvable_name emptySite "Smith".data none 2025 (by decide)
    (by
      intro s hs ev hev
      have hempty : getEventsForSeason emptySite (some s) (some 10) = [] := rfl
      rw [hempty] at hev
      exact absurd hev (by simp))

/-! ### Claim C9 -/

lemma athleteDisciplineResults_profile_url (doc : EventDoc)
    (dn en an au : List Char) :
    ∀ r ∈ athleteDisciplineResults doc dn en an au, r.profile_url = au := by
  intro r hr
  unfold athleteDisciplineResults at hr
  split at hr
  · exact absurd hr (by simp)
  · split at hr
    · exact absurd hr (by simp)
    · rw [List.mem_filterMap] at hr
      obtain ⟨cells, _, hsome⟩ := hr
      exact (athleteRowToRecord_fields hsome).1

/-- C9: proved as claimed. Every record emitted by the per-athlete event scan carries
the profile URL of the athlete resolved at the start of the query — the
`athlete_url` argument — never a URL read from the matched row itself. -/
theorem C9_profile_url_resolved (site : Site)
    (event_url event_name athlete_name athlete_url : List Char) :
    ∀ r ∈ getAthleteResultsFromEvent site event_url event_name athlete_name
        athlete_url, r.profile_url = athlete_url := by
  intro r hr
  unfold getAthleteResultsFromEvent at hr
  split at hr
  · exact absurd hr (by simp)
  · rcases List.mem_append.mp hr with h1 | h2
    · exact athleteDisciplineResults_profile_url _ _ _ _ _ r h1
    · exact athleteDisciplineResults_profile_url _ _ _ _ _ r h2

/-- Witness for C9: the row names `"John Smithson"` — a different
athlete merely containing the query `"Smith"` — and links to
`/Athlete/99`, yet the emitted record carries the resolved URL. -/
theorem C9_profile_url_resolved_witness :
    exRec9.profile_url = "RESOLVED".data :=
  C9_profile_url_resolved exSite9 "E9".data "Ev9".data "Smith".data
    "RESOLVED".data exRec9 (by decide)

/-- Witness for C1 at the spec's concrete scenario. -/
theorem C1_wood_extraction_witness :
    extractWood ("WhitePine".data ++ (" ".data ++ ('(' ::
        ("32".data ++ (" ".data ++ ('c' :: 'm' :: " diameter)".data))))))
      = (natToDec (digitsToNat "32".data * 10), "WhitePine".data) :=
  (C1_wood_extraction "WhitePine".data " ".data "32".data " ".data
    " diameter)".data (by decide) (by decide) (by decide) (by decide)
    (by decide) (by decide)).1

end Timbersports
